import Mathlib

/-!
A shallow embedding of the CHIP-8 interpreter core found in src/main.rs, together
with theorems checking the interpreter's specification against it.

Modelling conventions:
* Rust u8/u16 values are natural numbers; wrapping arithmetic (release-build
  semantics) is written with an explicit `% 256` or `% 65536` exactly where the
  source performs a fixed-width operation.
* Fixed-size Rust arrays (`registers`, `memory`, `stack`, `video`) are functions
  `Nat → Nat`; an out-of-bounds index, which panics in Rust, is modelled by the
  enclosing operation returning `none`.  Handlers that cannot panic return the
  new state directly.
* The `rand::random::<u16>()` draw in op_cxkk is passed in as an explicit `rnd`
  argument, making `exec` and `cycle` deterministic functions of their inputs.
-/

namespace Chip8

/-- Pointwise update of a function, modelling an in-place array write `a[i] = v`. -/
def upd (f : Nat → Nat) (i v : Nat) : Nat → Nat := fun j => if j = i then v else f j

/-- Machine state, mirroring `struct CHIP8` in src/main.rs: 16 8-bit registers,
4096 bytes of memory, 16-bit index register and program counter, a 16-level
stack with an 8-bit stack pointer, and the 64x32 video buffer. -/
structure CHIP8 where
  registers : Nat → Nat
  memory : Nat → Nat
  IR : Nat
  PC : Nat
  stack : Nat → Nat
  st_pointer : Nat
  video : Nat → Nat

/-- `const START_ADDRESS: u16 = 0x200`. -/
def START_ADDRESS : Nat := 0x200

/-- `const FONTSET_ADDRESS: u8 = 0x50`. -/
def FONTSET_ADDRESS : Nat := 0x50

/-- `const FONTSET: [u8; 80]`, the built-in font table. -/
def FONTSET : List Nat := [
  0xF0, 0x90, 0x90, 0x90, 0xF0,
  0x20, 0x60, 0x20, 0x20, 0x70,
  0xF0, 0x10, 0xF0, 0x80, 0xF0,
  0xF0, 0x10, 0xF0, 0x10, 0xF0,
  0x90, 0x90, 0xF0, 0x10, 0x10,
  0xF0, 0x80, 0xF0, 0x10, 0xF0,
  0xF0, 0x80, 0xF0, 0x90, 0xF0,
  0xF0, 0x10, 0x20, 0x40, 0x40,
  0xF0, 0x90, 0xF0, 0x90, 0xF0,
  0xF0, 0x90, 0xF0, 0x10, 0xF0,
  0xF0, 0x90, 0xF0, 0x90, 0x90,
  0xE0, 0x90, 0xE0, 0x90, 0xE0,
  0xF0, 0x80, 0x80, 0x80, 0xF0,
  0xE0, 0x90, 0x90, 0x90, 0xE0,
  0xF0, 0x80, 0xF0, 0x80, 0xF0,
  0xF0, 0x80, 0xF0, 0x80, 0x80]

/-- `CHIP8::new()`: zeroed state, `PC = START_ADDRESS`, and the 80 font bytes
copied into memory starting at `FONTSET_ADDRESS`. -/
def CHIP8.new : CHIP8 where
  registers := fun _ => 0
  memory := fun a =>
    if FONTSET_ADDRESS ≤ a ∧ a < FONTSET_ADDRESS + FONTSET.length then
      FONTSET.getD (a - FONTSET_ADDRESS) 0
    else 0
  IR := 0
  PC := START_ADDRESS
  stack := fun _ => 0
  st_pointer := 0
  video := fun _ => 0

/-- `CHIP8::load_rom`: the ROM bytes are copied verbatim into memory starting
at `START_ADDRESS`. -/
def load_rom (s : CHIP8) (rom : List Nat) : CHIP8 :=
  { s with memory := fun a =>
      if START_ADDRESS ≤ a ∧ a < START_ADDRESS + rom.length then
        rom.getD (a - START_ADDRESS) 0
      else s.memory a }

/-- `op_00e0` (CLS): `self.video.fill(0)`. -/
def op_00e0 (s : CHIP8) : CHIP8 := { s with video := fun _ => 0 }

/-- `op_00ee` (RET): `self.st_pointer -= 1; self.PC = self.stack[self.st_pointer]`.
With `st_pointer = 0` the u8 decrement wraps to 255 (release build) and the stack
index panics; the model returns `none` exactly when the decremented pointer is
out of the 16-entry stack. -/
def op_00ee (s : CHIP8) : Option CHIP8 :=
  let sp := (s.st_pointer + 255) % 256
  if sp < 16 then some { s with st_pointer := sp, PC := s.stack sp } else none

/-- `op_1nnn` (JP addr): `self.PC = opcode & 0x0FFF`. -/
def op_1nnn (s : CHIP8) (opcode : Nat) : CHIP8 :=
  { s with PC := opcode &&& 0xFFF }

/-- `op_2nnn` (CALL addr): `self.stack[self.st_pointer] = self.PC;
self.st_pointer += 1; self.PC = opcode & 0x0FFF`.  The stack write panics when
`st_pointer` is not below 16. -/
def op_2nnn (s : CHIP8) (opcode : Nat) : Option CHIP8 :=
  let address := opcode &&& 0xFFF
  if s.st_pointer < 16 then
    some { s with
      stack := upd s.stack s.st_pointer s.PC,
      st_pointer := (s.st_pointer + 1) % 256,
      PC := address }
  else none

/-- `op_3xkk` (SE Vx, byte): skip if `registers[(opcode >> 8) & 0xF] == kk`. -/
def op_3xkk (s : CHIP8) (opcode : Nat) : CHIP8 :=
  let value := opcode &&& 0xFF
  let r_address := (opcode >>> 8) &&& 0xF
  if s.registers r_address = value then { s with PC := (s.PC + 2) % 65536 } else s

/-- `op_4xkk` (SNE Vx, byte): skip if `registers[(opcode >> 8) & 0xF] != kk`. -/
def op_4xkk (s : CHIP8) (opcode : Nat) : CHIP8 :=
  let value := opcode &&& 0xFF
  let r_address := (opcode >>> 8) &&& 0xF
  if s.registers r_address ≠ value then { s with PC := (s.PC + 2) % 65536 } else s

/-- `op_5xy0` (SE Vx, Vy): note the source binds `x = (opcode >> 4) & 0xF`
and `y = (opcode >> 8) & 0xF` and skips when the two registers are equal. -/
def op_5xy0 (s : CHIP8) (opcode : Nat) : CHIP8 :=
  let x := (opcode >>> 4) &&& 0xF
  let y := (opcode >>> 8) &&& 0xF
  if s.registers x = s.registers y then { s with PC := (s.PC + 2) % 65536 } else s

/-- `op_6xkk` (LD Vx, byte): `registers[(opcode >> 8) & 0xF] = kk`. -/
def op_6xkk (s : CHIP8) (opcode : Nat) : CHIP8 :=
  let value := opcode &&& 0xFF
  let r_address := (opcode >>> 8) &&& 0xF
  { s with registers := upd s.registers r_address value }

/-- `op_7xkk` (ADD Vx, byte): `registers[(opcode >> 8) & 0xF] += kk`, an 8-bit
wrapping add. -/
def op_7xkk (s : CHIP8) (opcode : Nat) : CHIP8 :=
  let value := opcode &&& 0xFF
  let r_address := (opcode >>> 8) &&& 0xF
  { s with registers := upd s.registers r_address ((s.registers r_address + value) % 256) }

/-- `op_8xy0` (LD): the source binds `x = (opcode >> 4) & 0xF` (bits 4-7) and
`y = (opcode >> 8) & 0xF` (bits 8-11) and does `registers[x] = registers[y]`. -/
def op_8xy0 (s : CHIP8) (opcode : Nat) : CHIP8 :=
  let x := (opcode >>> 4) &&& 0xF
  let y := (opcode >>> 8) &&& 0xF
  { s with registers := upd s.registers x (s.registers y) }

/-- `op_8xy1` (OR): same operand binding as op_8xy0, `registers[x] |= registers[y]`. -/
def op_8xy1 (s : CHIP8) (opcode : Nat) : CHIP8 :=
  let x := (opcode >>> 4) &&& 0xF
  let y := (opcode >>> 8) &&& 0xF
  { s with registers := upd s.registers x (s.registers x ||| s.registers y) }

/-- `op_8xy2` (AND): `registers[x] &= registers[y]`. -/
def op_8xy2 (s : CHIP8) (opcode : Nat) : CHIP8 :=
  let x := (opcode >>> 4) &&& 0xF
  let y := (opcode >>> 8) &&& 0xF
  { s with registers := upd s.registers x (s.registers x &&& s.registers y) }

/-- `op_8xy3` (XOR): `registers[x] ^= registers[y]`. -/
def op_8xy3 (s : CHIP8) (opcode : Nat) : CHIP8 :=
  let x := (opcode >>> 4) &&& 0xF
  let y := (opcode >>> 8) &&& 0xF
  { s with registers := upd s.registers x (s.registers x ^^^ s.registers y) }

/-- `op_8xy4` (ADD with carry): `checked_add`; on `Some v` only `registers[x]`
is written (the flag register is left untouched); on overflow the wrapped sum is
stored and then `registers[15] = 1`. -/
def op_8xy4 (s : CHIP8) (opcode : Nat) : CHIP8 :=
  let x := (opcode >>> 4) &&& 0xF
  let y := (opcode >>> 8) &&& 0xF
  let vx := s.registers x
  let vy := s.registers y
  if vx + vy ≤ 255 then
    { s with registers := upd s.registers x (vx + vy) }
  else
    { s with registers := upd (upd s.registers x ((vx + vy) % 256)) 15 1 }

/-- `op_8xy5` (SUB): `registers[x] = vx - vy` (8-bit wrapping difference), then
`registers[15] = if vx > vy then 1 else 0` (strict comparison). -/
def op_8xy5 (s : CHIP8) (opcode : Nat) : CHIP8 :=
  let x := (opcode >>> 4) &&& 0xF
  let y := (opcode >>> 8) &&& 0xF
  let vx := s.registers x
  let vy := s.registers y
  let flag : Nat := if vx > vy then 1 else 0
  { s with registers := upd (upd s.registers x ((vx + 256 - vy) % 256)) 15 flag }

/-- `op_8xy7` (SUBN): `registers[x] = vy - vx`, then
`registers[15] = if vy > vx then 1 else 0`. -/
def op_8xy7 (s : CHIP8) (opcode : Nat) : CHIP8 :=
  let x := (opcode >>> 4) &&& 0xF
  let y := (opcode >>> 8) &&& 0xF
  let vx := s.registers x
  let vy := s.registers y
  let flag : Nat := if vy > vx then 1 else 0
  { s with registers := upd (upd s.registers x ((vy + 256 - vx) % 256)) 15 flag }

/-- `op_9xy0` (SNE Vx, Vy): skip when the two registers differ. -/
def op_9xy0 (s : CHIP8) (opcode : Nat) : CHIP8 :=
  let x := (opcode >>> 4) &&& 0xF
  let y := (opcode >>> 8) &&& 0xF
  if s.registers x ≠ s.registers y then { s with PC := (s.PC + 2) % 65536 } else s

/-- `op_annn` (LD I, addr): `self.IR = opcode & 0x0FFF`. -/
def op_annn (s : CHIP8) (opcode : Nat) : CHIP8 :=
  { s with IR := opcode &&& 0xFFF }

/-- `op_bnnn` (JP V0, addr): `self.PC = registers[0] as u16 + (opcode & 0x0FFF)`. -/
def op_bnnn (s : CHIP8) (opcode : Nat) : CHIP8 :=
  { s with PC := (s.registers 0 + (opcode &&& 0xFFF)) % 65536 }

/-- `op_cxkk` (RND Vx, byte): `registers[(opcode >> 8) & 0xF] =
(random_u16 & kk) as u8`, with the random u16 draw passed in as `rnd`. -/
def op_cxkk (s : CHIP8) (opcode rnd : Nat) : CHIP8 :=
  let value := opcode &&& 0xFF
  let r_address := (opcode >>> 8) &&& 0xF
  { s with registers := upd s.registers r_address (((rnd % 65536) &&& value) % 256) }

/-- The body of the inner `for col in 0..8` loop of `op_dxyn`.  All index
arithmetic is performed on u8 values (each step wraps modulo 256), the sprite
pixel mask is compared to the literal `1`, and a lit pixel is toggled with
`^= 0xFF` after checking for a collision with `== 0xFF`. -/
def drawColStep (x_pos y_pos row sprite_byte : Nat) (st : CHIP8) (col : Nat) : CHIP8 :=
  let sprite_pixel := sprite_byte &&& (0x80 >>> col)
  if sprite_pixel = 1 then
    let idx := ((y_pos + row) % 256 * 32 % 256 + (x_pos + col) % 256) % 256
    let st1 := if st.video idx = 0xFF then { st with registers := upd st.registers 0xF 1 } else st
    { st1 with video := upd st1.video idx (st1.video idx ^^^ 0xFF) }
  else st

/-- One sprite row of `op_dxyn`: fold the column step over cols 0..7. -/
def drawRow (x_pos y_pos row sprite_byte : Nat) (st : CHIP8) : CHIP8 :=
  (List.range 8).foldl (drawColStep x_pos y_pos row sprite_byte) st

/-- The outer `for row in 0..height` loop of `op_dxyn`.  Each row reads
`memory[(IR + row) as u16]`; the read panics (modelled by `none`) when the
unmasked address reaches past the 4096-byte memory. -/
def drawRows (x_pos y_pos : Nat) (s : CHIP8) (row fuel : Nat) : Option CHIP8 :=
  match fuel with
  | 0 => some s
  | Nat.succ k =>
    let addr := (s.IR + row) % 65536
    if addr < 4096 then
      drawRows x_pos y_pos (drawRow x_pos y_pos row (s.memory addr) s) (row + 1) k
    else none

/-- `op_dxyn` (DRW): origin wraps with `% 64` / `% 32`, the flag register is
cleared, then `height = opcode & 0xF` rows are drawn. -/
def op_dxyn (s : CHIP8) (opcode : Nat) : Option CHIP8 :=
  let height := opcode &&& 0xF
  let vy := (opcode &&& 0xF0) >>> 4
  let vx := (opcode &&& 0xF00) >>> 8
  let x_pos := s.registers vx % 64
  let y_pos := s.registers vy % 32
  drawRows x_pos y_pos { s with registers := upd s.registers 0xF 0 } 0 height

/-- `CHIP8::exec`: dispatch on the top nibble `(opcode & 0xF000) >> 12`; the
0x0 and 0x8 families further dispatch on the bottom nibble `opcode & 0x000F`;
every unmatched arm is `op_null`, which returns the state unchanged. -/
def exec (s : CHIP8) (opcode rnd : Nat) : Option CHIP8 :=
  match (opcode &&& 0xF000) >>> 12 with
  | 0x0 =>
    (match opcode &&& 0xF with
     | 0x0 => some (op_00e0 s)
     | 0xE => op_00ee s
     | _ => some s)
  | 0x1 => some (op_1nnn s opcode)
  | 0x2 => op_2nnn s opcode
  | 0x3 => some (op_3xkk s opcode)
  | 0x4 => some (op_4xkk s opcode)
  | 0x5 => some (op_5xy0 s opcode)
  | 0x6 => some (op_6xkk s opcode)
  | 0x7 => some (op_7xkk s opcode)
  | 0x8 =>
    (match opcode &&& 0xF with
     | 0x0 => some (op_8xy0 s opcode)
     | 0x1 => some (op_8xy1 s opcode)
     | 0x2 => some (op_8xy2 s opcode)
     | 0x3 => some (op_8xy3 s opcode)
     | 0x4 => some (op_8xy4 s opcode)
     | 0x5 => some (op_8xy5 s opcode)
     | 0x7 => some (op_8xy7 s opcode)
     | _ => some s)
  | 0x9 => some (op_9xy0 s opcode)
  | 0xA => some (op_annn s opcode)
  | 0xB => some (op_bnnn s opcode)
  | 0xC => some (op_cxkk s opcode rnd)
  | 0xD => op_dxyn s opcode
  | _ => some s

/-- `CHIP8::cycle`: fetch
`((memory[PC] | 0xFF00) << 8) | memory[PC + 1]` (u16 arithmetic, hence the
`% 65536` after the shift), advance `PC` by 2, then `exec`.  The two memory
reads panic (modelled by `none`) when `PC + 1` reaches past the 4096 bytes. -/
def cycle (s : CHIP8) (rnd : Nat) : Option CHIP8 :=
  if s.PC + 1 < 4096 then
    exec { s with PC := (s.PC + 2) % 65536 }
      ((((s.memory s.PC ||| 0xFF00) <<< 8) % 65536) ||| s.memory (s.PC + 1)) rnd
  else none

/-! Concrete states used by the claim theorems below. -/

/-- R1 = 1, R2 = 2, flag register R15 = 1, everything else as freshly constructed. -/
def sC1 : CHIP8 :=
  { CHIP8.new with registers := fun i => if i = 1 then 1 else if i = 2 then 2 else if i = 15 then 1 else 0 }

/-- R1 = 10, R2 = 3. -/
def sC2 : CHIP8 :=
  { CHIP8.new with registers := fun i => if i = 1 then 10 else if i = 2 then 3 else 0 }

/-- R1 = R2 = 5 (equal operands). -/
def sC2eq : CHIP8 :=
  { CHIP8.new with registers := fun i => if i = 1 then 5 else if i = 2 then 5 else 0 }

/-- Fresh machine with the index register pointing at the font glyph for 0
(memory byte 0xF0 at address 0x50). -/
def sC3 : CHIP8 := { CHIP8.new with IR := 0x50 }

/-- Fresh machine with the ROM [0xAF, 0xFF, 0xD0, 0x02] loaded: the program
sets IR = 0xFFF and then draws a 2-row sprite. -/
def sC4 : CHIP8 := load_rom CHIP8.new [0xAF, 0xFF, 0xD0, 0x02]

/-- R1 = 5, R2 = 7. -/
def sC5 : CHIP8 :=
  { CHIP8.new with registers := fun i => if i = 1 then 5 else if i = 2 then 7 else 0 }

/-- Fresh machine with ROM [0x01, 0x20] (the unimplemented word 0x0120 at
0x200) and the first framebuffer pixel switched on. -/
def sC6 : CHIP8 :=
  { load_rom CHIP8.new [0x01, 0x20] with video := fun p => if p = 0 then 0xFF else 0 }

/-- Fresh machine with ROM [0xE1, 0x23]: the word 0xE123 is in the wholly
unimplemented 0xE family. -/
def sC6w : CHIP8 := load_rom CHIP8.new [0xE1, 0x23]

/-- Fresh machine with the stack pointer already at capacity 16. -/
def sC7full : CHIP8 := { CHIP8.new with st_pointer := 16 }

/-- Fresh machine with ROM [0x6A, 0x05] (load-immediate 5 into register 0xA). -/
def sC8w : CHIP8 := load_rom CHIP8.new [0x6A, 0x05]

/-- ROM placing 0x2300 (call 0x300) at 0x200 and 0x00EE (return) at 0x300. -/
def rom9 : List Nat := [0x23, 0x00] ++ List.replicate 0xFE 0 ++ [0x00, 0xEE]

/-- Fresh machine with rom9 loaded. -/
def sC9 : CHIP8 := load_rom CHIP8.new rom9

/-- The state reached from a fresh machine by executing the jump word 0x1234. -/
def tC10 : CHIP8 := { CHIP8.new with PC := 0x234 }

/-! Arithmetic facts about the nibble masks and the fetch expression. -/

/-- Masking with 0xF is reduction modulo 16. -/
theorem mask_f (c : Nat) : c &&& 0xF = c % 16 := by
  have h := Nat.and_pow_two_sub_one_eq_mod c 4
  norm_num at h
  exact h

/-- Masking with 0xFF is reduction modulo 256. -/
theorem mask_ff (c : Nat) : c &&& 0xFF = c % 256 := by
  have h := Nat.and_pow_two_sub_one_eq_mod c 8
  norm_num at h
  exact h

/-- Masking with 0xFFF is reduction modulo 4096. -/
theorem mask_fff (c : Nat) : c &&& 0xFFF = c % 4096 := by
  have h := Nat.and_pow_two_sub_one_eq_mod c 12
  norm_num at h
  exact h

/-- The dispatch key `(opcode & 0xF000) >> 12` is the top nibble of the low
16 bits of the word. -/
theorem fam_eq (c : Nat) : (c &&& 0xF000) >>> 12 = c / 4096 % 16 := by
  have hdiv : c / 4096 = c >>> 12 := by rw [Nat.shiftRight_eq_div_pow]
  have hmod : (c >>> 12) % 16 = (c >>> 12) &&& 0xF := (mask_f _).symm
  rw [hdiv, hmod]
  apply Nat.eq_of_testBit_eq
  intro i
  rw [Nat.testBit_shiftRight, Nat.testBit_land, Nat.testBit_land, Nat.testBit_shiftRight]
  have hb : Nat.testBit 0xF000 (12 + i) = Nat.testBit 0xF i := by
    rcases Nat.lt_or_ge i 4 with hlt | hge
    · interval_cases i <;> decide
    · have t1 : Nat.testBit 0xF000 (12 + i) = false := by
        apply Nat.testBit_lt_two_pow
        calc (0xF000 : Nat) < 2 ^ 16 := by norm_num
          _ ≤ 2 ^ (12 + i) := Nat.pow_le_pow_right (by norm_num) (by omega)
      have t2 : Nat.testBit 0xF i = false := by
        apply Nat.testBit_lt_two_pow
        calc (0xF : Nat) < 2 ^ 4 := by norm_num
          _ ≤ 2 ^ i := Nat.pow_le_pow_right (by norm_num) hge
      rw [t1, t2]
  rw [hb]

/-- The fetch expression of `cycle` computes the big-endian combination of the
two bytes: the `| 0xFF00` is made irrelevant by the following 16-bit shift. -/
theorem fetch_eq (hi lo : Nat) (h1 : hi < 256) (h2 : lo < 256) :
    ((((hi ||| 0xFF00) <<< 8) % 65536) ||| lo) = hi * 256 + lo := by
  have h8 : hi < 2 ^ 8 := by simpa using h1
  have l8 : lo < 2 ^ 8 := by simpa using h2
  have e1 : hi ||| 0xFF00 = 0xFF00 + hi := by
    rw [Nat.lor_comm, show (0xFF00 : Nat) = 2 ^ 8 * 255 from by norm_num]
    exact (Nat.mul_add_lt_is_or h8 255).symm
  rw [e1, Nat.shiftLeft_eq]
  have e2 : ((0xFF00 + hi) * 2 ^ 8) % 65536 = 2 ^ 8 * hi := by
    have e3 : (0xFF00 + hi) * 2 ^ 8 = 2 ^ 8 * hi + 255 * 65536 := by ring
    have e4 : 2 ^ 8 * hi < 65536 := by
      have h5 : 2 ^ 8 * hi ≤ 2 ^ 8 * 255 := Nat.mul_le_mul_left _ (by omega)
      norm_num at h5
      omega
    rw [e3]
    omega
  rw [e2, ← Nat.mul_add_lt_is_or l8 hi]
  ring

/-- `cycle` is the dispatch of the big-endian word at PC against the state with
PC already advanced by 2. -/
theorem cycle_eq_exec (s : CHIP8) (rnd : Nat) (hpc : s.PC + 1 < 4096)
    (hhi : s.memory s.PC < 256) (hlo : s.memory (s.PC + 1) < 256) :
    cycle s rnd =
      exec { s with PC := (s.PC + 2) % 65536 }
        (s.memory s.PC * 256 + s.memory (s.PC + 1)) rnd := by
  unfold cycle
  rw [if_pos hpc, fetch_eq _ _ hhi hlo]

/-! Frame lemmas: which state components each operation can touch. -/

/-- The inner draw loop body leaves memory, stack, stack pointer, PC and IR alone. -/
theorem drawColStep_frame (x_pos y_pos row b : Nat) (st : CHIP8) (col : Nat) :
    (drawColStep x_pos y_pos row b st col).memory = st.memory ∧
    (drawColStep x_pos y_pos row b st col).stack = st.stack ∧
    (drawColStep x_pos y_pos row b st col).st_pointer = st.st_pointer ∧
    (drawColStep x_pos y_pos row b st col).PC = st.PC ∧
    (drawColStep x_pos y_pos row b st col).IR = st.IR := by
  simp only [drawColStep]
  split_ifs <;> exact ⟨rfl, rfl, rfl, rfl, rfl⟩

/-- A whole sprite row leaves memory, stack, stack pointer, PC and IR alone. -/
theorem drawRow_frame (x_pos y_pos row b : Nat) (st : CHIP8) :
    (drawRow x_pos y_pos row b st).memory = st.memory ∧
    (drawRow x_pos y_pos row b st).stack = st.stack ∧
    (drawRow x_pos y_pos row b st).st_pointer = st.st_pointer ∧
    (drawRow x_pos y_pos row b st).PC = st.PC ∧
    (drawRow x_pos y_pos row b st).IR = st.IR := by
  unfold drawRow
  generalize List.range 8 = l
  induction l generalizing st with
  | nil => exact ⟨rfl, rfl, rfl, rfl, rfl⟩
  | cons a as ih =>
    simp only [List.foldl_cons]
    have h1 := drawColStep_frame x_pos y_pos row b st a
    have h2 := ih (drawColStep x_pos y_pos row b st a)
    exact ⟨h2.1.trans h1.1, h2.2.1.trans h1.2.1, h2.2.2.1.trans h1.2.2.1,
      h2.2.2.2.1.trans h1.2.2.2.1, h2.2.2.2.2.trans h1.2.2.2.2⟩

/-- The row loop of the draw handler leaves memory, stack, stack pointer, PC
and IR alone whenever it completes. -/
theorem drawRows_frame (x_pos y_pos : Nat) (fuel : Nat) :
    ∀ (s : CHIP8) (row : Nat) (t : CHIP8), drawRows x_pos y_pos s row fuel = some t →
      t.memory = s.memory ∧ t.stack = s.stack ∧ t.st_pointer = s.st_pointer ∧
      t.PC = s.PC ∧ t.IR = s.IR := by
  induction fuel with
  | zero =>
    intro s row t h
    unfold drawRows at h
    injection h with h2
    subst h2
    exact ⟨rfl, rfl, rfl, rfl, rfl⟩
  | succ k ih =>
    intro s row t h
    unfold drawRows at h
    dsimp only at h
    split_ifs at h with hc
    have h1 := ih _ _ _ h
    have h2 := drawRow_frame x_pos y_pos row (s.memory ((s.IR + row) % 65536)) s
    exact ⟨h1.1.trans h2.1, h1.2.1.trans h2.2.1, h1.2.2.1.trans h2.2.2.1,
      h1.2.2.2.1.trans h2.2.2.2.1, h1.2.2.2.2.trans h2.2.2.2.2⟩

/-- The draw handler leaves memory, stack, stack pointer, PC and IR alone
whenever it completes. -/
theorem op_dxyn_frame (s : CHIP8) (c : Nat) (t : CHIP8) (h : op_dxyn s c = some t) :
    t.memory = s.memory ∧ t.stack = s.stack ∧ t.st_pointer = s.st_pointer ∧
    t.PC = s.PC ∧ t.IR = s.IR := by
  unfold op_dxyn at h
  dsimp only at h
  have h1 := drawRows_frame _ _ _ _ _ _ h
  exact ⟨h1.1, h1.2.1, h1.2.2.1, h1.2.2.2.1, h1.2.2.2.2⟩

set_option maxHeartbeats 2000000 in
/-- Any successful dispatch leaves memory unchanged, and moves the stack
pointer only in the ways the call and return handlers do. -/
theorem exec_frame (s : CHIP8) (c rnd : Nat) (t : CHIP8) (h : exec s c rnd = some t) :
    t.memory = s.memory ∧
    (t.st_pointer = s.st_pointer ∨
      (s.st_pointer < 16 ∧ t.st_pointer = (s.st_pointer + 1) % 256) ∨
      (t.st_pointer = (s.st_pointer + 255) % 256 ∧ (s.st_pointer + 255) % 256 < 16)) := by
  have hfam : (c &&& 0xF000) >>> 12 < 16 := by rw [fam_eq]; omega
  have hsub : c &&& 0xF < 16 := by rw [mask_f]; omega
  unfold exec at h
  generalize hg1 : (c &&& 0xF000) >>> 12 = fam at h hfam
  generalize hg2 : c &&& 0xF = sub at h hsub
  interval_cases fam <;> (try interval_cases sub) <;> dsimp only at h <;>
    first
      | (injection h with h2; subst h2; refine ⟨?_, Or.inl ?_⟩ <;>
          first
            | rfl
            | (simp only [op_00e0, op_1nnn, op_3xkk, op_4xkk, op_5xy0, op_6xkk, op_7xkk,
                op_8xy0, op_8xy1, op_8xy2, op_8xy3, op_8xy4, op_8xy5, op_8xy7, op_9xy0,
                op_annn, op_bnnn, op_cxkk]
               first
                | rfl
                | (split_ifs <;> rfl)))
      | (simp only [op_00ee] at h
         split_ifs at h with hc
         injection h with h2
         subst h2
         exact ⟨rfl, Or.inr (Or.inr ⟨rfl, hc⟩)⟩)
      | (simp only [op_2nnn] at h
         split_ifs at h with hc
         injection h with h2
         subst h2
         exact ⟨rfl, Or.inr (Or.inl ⟨hc, rfl⟩)⟩)
      | (obtain ⟨hm, hst, hsp, hpc, hir⟩ := op_dxyn_frame s c t h
         exact ⟨hm, Or.inl hsp⟩)

/-- Any word whose top nibble is 2 dispatches to the call handler. -/
theorem exec_fam2 (s : CHIP8) (c rnd : Nat) (h : (c &&& 0xF000) >>> 12 = 0x2) :
    exec s c rnd = op_2nnn s c := by
  unfold exec
  rw [h]

/-- Words the dispatcher routes to op_null: family 0x0 with bottom nibble
other than 0x0/0xE, family 0x8 with bottom nibble other than 0x0-0x5/0x7, and
all of families 0xE and 0xF. -/
theorem exec_noop (s : CHIP8) (c rnd : Nat)
    (h : ((c &&& 0xF000) >>> 12 = 0x0 ∧ c &&& 0xF ≠ 0x0 ∧ c &&& 0xF ≠ 0xE) ∨
      ((c &&& 0xF000) >>> 12 = 0x8 ∧ c &&& 0xF ≠ 0x0 ∧ c &&& 0xF ≠ 0x1 ∧ c &&& 0xF ≠ 0x2 ∧
        c &&& 0xF ≠ 0x3 ∧ c &&& 0xF ≠ 0x4 ∧ c &&& 0xF ≠ 0x5 ∧ c &&& 0xF ≠ 0x7) ∨
      (c &&& 0xF000) >>> 12 = 0xE ∨ (c &&& 0xF000) >>> 12 = 0xF) :
    exec s c rnd = some s := by
  have hsub : c &&& 0xF < 16 := by rw [mask_f]; omega
  unfold exec
  rcases h with ⟨hf, h1, h2⟩ | ⟨hf, h1, h2, h3, h4, h5, h6, h7⟩ | hf | hf <;> rw [hf]
  · generalize hg : c &&& 0xF = sub at h1 h2 hsub
    interval_cases sub <;> first | rfl | omega
  · generalize hg : c &&& 0xF = sub at h1 h2 h3 h4 h5 h6 h7 hsub
    interval_cases sub <;> first | rfl | omega

/-! The claim theorems. -/

/-- C1 (code bug evaluation): executing the add-registers word 0x8124 on sC1
(R1 = 1, R2 = 2, flag register R15 = 1) leaves the flag register at 1 although
the sum 1 + 2 = 3 does not overflow — the claim requires the flag to be
written to 0 — and stores the sum in R2 (the bits 4-7 register), leaving the
claimed destination R1 untouched. -/
theorem c1_add_registers_flag_not_cleared :
    (exec sC1 0x8124 0).map (fun t => (t.registers 15, t.registers 2, t.registers 1)) =
      some (1, 3, 1) := by decide

/-- C2 (code bug evaluation): executing the subtract word 0x8125 on sC2
(R1 = 10, R2 = 3) stores 249 = (3 - 10) mod 256 in R2 and 0 in the flag
register, where the claim expects R1 = 7, flag 1 and R2 untouched; and on
sC2eq (equal operands 5, 5) the flag register is set to 0 although the claim
requires 1 for equal operands. -/
theorem c2_subtract_strict_flag_and_swapped_operands :
    ((exec sC2 0x8125 0).map (fun t => (t.registers 1, t.registers 2, t.registers 15)) =
      some (10, 249, 0)) ∧
    ((exec sC2eq 0x8125 0).map (fun t => (t.registers 2, t.registers 15)) =
      some (0, 0)) := by decide

set_option maxRecDepth 8000 in
/-- C3 (code bug evaluation): drawing one sprite row (word 0xD001) on sC3,
whose index register points at the font byte 0xF0 (top four bits set), toggles
no framebuffer pixel at all — in particular the cells 0-3, where the claim
places the four toggled-on pixels, stay off, and the flag register stays 0.
Checking the first 256 cells is exhaustive here: the handler computes every
video index in u8 arithmetic, so any write lands in cells 0-255, and sC3's
framebuffer is identically off. -/
theorem c3_draw_sprite_no_pixel_toggled :
    sC3.memory 0x50 = 0xF0 ∧
    (exec sC3 0xD001 0).map
      (fun t => ((List.range 256).all (fun p => t.video p == 0), t.registers 15)) =
      some (true, 0) := by decide

set_option maxRecDepth 8000 in
/-- C4 (code bug evaluation): from the reachable state sC4 (fresh machine with
the ROM 0xAFFF 0xD002 loaded), the first cycle sets IR = 0xFFF, and the second
cycle — the draw instruction 0xD002 — reads memory at the unmasked address
IR + 1 = 0x1000, outside the 4096-byte window, so the machine panics (modelled
as none) instead of masking the address to 12 bits. -/
theorem c4_unmasked_draw_read_goes_out_of_bounds :
    ((cycle sC4 0).map (fun t => (t.IR, t.PC)) = some (0xFFF, 0x202)) ∧
    (((cycle sC4 0).bind (fun t => cycle t 0)).isSome = false) := by decide

/-- C5 (code bug evaluation): executing the register-move word 0x8120 on sC5
(R1 = 5, R2 = 7) copies R1 into R2, producing R1 = R2 = 5, although the claim
requires the bits 8-11 register R1 to receive the result (R1 = R2 = 7) and the
bits 4-7 register R2 to stay unchanged. -/
theorem c5_move_writes_secondary_register :
    (exec sC5 0x8120 0).map (fun t => (t.registers 1, t.registers 2)) =
      some (5, 5) := by decide

/-- C6 (counterexample): the word 0x0120 is not an implemented opcode, yet
cycling it on sC6 (first pixel on) clears the framebuffer: the cycle is not a
no-op apart from the program counter advancing. -/
theorem c6_family0_word_clears_screen :
    sC6.video 0 = 0xFF ∧
    (cycle sC6 0).map (fun t => (t.video 0, t.PC)) = some (0, 0x202) := by decide

/-- C6 (amended): a fetched word of family 0x0 whose bottom nibble is neither
0x0 nor 0xE, of family 0x8 whose bottom nibble is not one of 0x0-0x5/0x7, or
of families 0xE or 0xF, executes as a pure no-op: the cycle only advances the
program counter by 2. -/
theorem c6_unimplemented_words_are_noops (s : CHIP8) (rnd c : Nat)
    (hpc : s.PC + 1 < 4096) (hhi : s.memory s.PC < 256) (hlo : s.memory (s.PC + 1) < 256)
    (hc : c = s.memory s.PC * 256 + s.memory (s.PC + 1))
    (hno : ((c &&& 0xF000) >>> 12 = 0x0 ∧ c &&& 0xF ≠ 0x0 ∧ c &&& 0xF ≠ 0xE) ∨
      ((c &&& 0xF000) >>> 12 = 0x8 ∧ c &&& 0xF ≠ 0x0 ∧ c &&& 0xF ≠ 0x1 ∧ c &&& 0xF ≠ 0x2 ∧
        c &&& 0xF ≠ 0x3 ∧ c &&& 0xF ≠ 0x4 ∧ c &&& 0xF ≠ 0x5 ∧ c &&& 0xF ≠ 0x7) ∨
      (c &&& 0xF000) >>> 12 = 0xE ∨ (c &&& 0xF000) >>> 12 = 0xF) :
    cycle s rnd = some { s with PC := (s.PC + 2) % 65536 } := by
  rw [cycle_eq_exec s rnd hpc hhi hlo, ← hc]
  exact exec_noop _ _ _ hno

/-- Witness for C6: cycling the fetched family-0xE word 0xE123 from sC6w only
advances the program counter. -/
theorem c6_unimplemented_words_are_noops_witness :
    cycle sC6w 0 = some { sC6w with PC := (sC6w.PC + 2) % 65536 } :=
  c6_unimplemented_words_are_noops sC6w 0 0xE123 (by decide) (by decide) (by decide)
    (by decide) (by decide)

/-- C7: return fails (stack read out of bounds) exactly when the stack pointer
is 0 and otherwise pops; call fails exactly at stack pointer 16 and otherwise
pushes; and no dispatched instruction can move a stack pointer that is at most
16 above 16. -/
theorem c7_stack_pointer_discipline (s : CHIP8) (nnn rnd : Nat) :
    (s.st_pointer = 0 → exec s 0x00EE rnd = none) ∧
    (1 ≤ s.st_pointer → s.st_pointer ≤ 16 →
      exec s 0x00EE rnd =
        some { s with st_pointer := s.st_pointer - 1, PC := s.stack (s.st_pointer - 1) }) ∧
    (nnn < 4096 → s.st_pointer = 16 → exec s (0x2000 + nnn) rnd = none) ∧
    (nnn < 4096 → s.st_pointer < 16 →
      exec s (0x2000 + nnn) rnd =
        some { s with stack := upd s.stack s.st_pointer s.PC,
                      st_pointer := s.st_pointer + 1, PC := nnn }) ∧
    (∀ c t, s.st_pointer ≤ 16 → exec s c rnd = some t → t.st_pointer ≤ 16) := by
  have hret : exec s 0x00EE rnd = op_00ee s := rfl
  refine ⟨?_, ?_, ?_, ?_, ?_⟩
  · intro h0
    rw [hret]
    simp only [op_00ee, h0]
    norm_num
  · intro h1 h16
    rw [hret]
    simp only [op_00ee]
    rw [show (s.st_pointer + 255) % 256 = s.st_pointer - 1 from by omega,
      if_pos (show s.st_pointer - 1 < 16 from by omega)]
  · intro hn h16
    rw [exec_fam2 s _ rnd (by rw [fam_eq]; omega)]
    simp only [op_2nnn, h16]
    norm_num
  · intro hn hlt
    rw [exec_fam2 s _ rnd (by rw [fam_eq]; omega)]
    simp only [op_2nnn]
    rw [if_pos hlt, show ((0x2000 + nnn) &&& 0xFFF) = nnn from by rw [mask_fff]; omega,
      show (s.st_pointer + 1) % 256 = s.st_pointer + 1 from by omega]
  · intro c t h16 hex
    rcases (exec_frame s c rnd t hex).2 with heq | ⟨hlt, heq⟩ | ⟨heq, hlt⟩ <;> omega

/-- Witness for C7: the three stack scenarios at concrete states. -/
theorem c7_stack_pointer_discipline_witness :
    exec CHIP8.new 0x00EE 0 = none ∧
    exec sC7full (0x2000 + 0x345) 0 = none ∧
    exec CHIP8.new (0x2000 + 0x345) 0 =
      some { CHIP8.new with
        stack := upd CHIP8.new.stack CHIP8.new.st_pointer CHIP8.new.PC,
        st_pointer := CHIP8.new.st_pointer + 1,
        PC := 0x345 } :=
  ⟨(c7_stack_pointer_discipline CHIP8.new 0x345 0).1 rfl,
   (c7_stack_pointer_discipline sC7full 0x345 0).2.2.1 (by decide) rfl,
   (c7_stack_pointer_discipline CHIP8.new 0x345 0).2.2.2.1 (by decide) (by decide)⟩

/-- C8: a cycle fetches the big-endian word formed from memory at PC (high
byte) and PC + 1 (low byte) and dispatches it against the state whose program
counter has already been advanced by 2. -/
theorem c8_fetch_is_big_endian_and_pc_preadvanced (s : CHIP8) (rnd : Nat)
    (hpc : s.PC + 1 < 4096) (hhi : s.memory s.PC < 256) (hlo : s.memory (s.PC + 1) < 256) :
    cycle s rnd =
      exec { s with PC := (s.PC + 2) % 65536 }
        (s.memory s.PC * 256 + s.memory (s.PC + 1)) rnd :=
  cycle_eq_exec s rnd hpc hhi hlo

/-- Witness for C8: the fetch decomposition at the concrete loaded state sC8w. -/
theorem c8_fetch_is_big_endian_and_pc_preadvanced_witness :
    cycle sC8w 0 =
      exec { sC8w with PC := (sC8w.PC + 2) % 65536 }
        (sC8w.memory sC8w.PC * 256 + sC8w.memory (sC8w.PC + 1)) 0 :=
  c8_fetch_is_big_endian_and_pc_preadvanced sC8w 0 (by decide) (by decide) (by decide)

set_option maxRecDepth 8000 in
/-- C9: from any state with stack pointer below 16, a call word followed
immediately by the return word restores the program counter and the stack
pointer to their pre-call values; concretely, cycling 0x2300 then 0x00EE from
PC 0x200 ends at PC 0x202 with stack pointer 0. -/
theorem c9_call_then_return_restores_pc_and_sp (s : CHIP8) (c rnd rnd2 : Nat)
    (hsp : s.st_pointer < 16) (hfam : (c &&& 0xF000) >>> 12 = 0x2) :
    (∃ t u, exec s c rnd = some t ∧ exec t 0x00EE rnd2 = some u ∧
        u.PC = s.PC ∧ u.st_pointer = s.st_pointer) ∧
    ((cycle sC9 0).bind (fun t => cycle t 0)).map (fun t => (t.PC, t.st_pointer)) =
      some (0x202, 0) := by
  refine ⟨?_, by decide⟩
  refine ⟨{ s with
      stack := upd s.stack s.st_pointer s.PC,
      st_pointer := (s.st_pointer + 1) % 256,
      PC := c &&& 0xFFF },
    { s with stack := upd s.stack s.st_pointer s.PC }, ?_, ?_, rfl, rfl⟩
  · rw [exec_fam2 s c rnd hfam]
    simp only [op_2nnn]
    rw [if_pos hsp]
  · have hret : exec { s with
        stack := upd s.stack s.st_pointer s.PC,
        st_pointer := (s.st_pointer + 1) % 256,
        PC := c &&& 0xFFF } 0x00EE rnd2 =
        op_00ee { s with
        stack := upd s.stack s.st_pointer s.PC,
        st_pointer := (s.st_pointer + 1) % 256,
        PC := c &&& 0xFFF } := rfl
    rw [hret]
    simp only [op_00ee]
    rw [show ((s.st_pointer + 1) % 256 + 255) % 256 = s.st_pointer from by omega,
      if_pos hsp]
    simp [upd]

/-- Witness for C9: the round trip instantiated at the fresh machine and the
call word 0x2300. -/
theorem c9_call_then_return_restores_pc_and_sp_witness :
    (∃ t u, exec CHIP8.new 0x2300 0 = some t ∧ exec t 0x00EE 0 = some u ∧
        u.PC = CHIP8.new.PC ∧ u.st_pointer = CHIP8.new.st_pointer) ∧
    ((cycle sC9 0).bind (fun t => cycle t 0)).map (fun t => (t.PC, t.st_pointer)) =
      some (0x202, 0) :=
  c9_call_then_return_restores_pc_and_sp CHIP8.new 0x2300 0 0 (by decide) (by decide)

/-- C10: neither a dispatched instruction nor a whole cycle ever writes main
memory: whenever execution completes, every memory byte is unchanged. -/
theorem c10_memory_is_never_written (s : CHIP8) (c rnd : Nat) (t : CHIP8)
    (h : exec s c rnd = some t ∨ cycle s rnd = some t) : t.memory = s.memory := by
  rcases h with h | h
  · exact (exec_frame s c rnd t h).1
  · unfold cycle at h
    split_ifs at h
    exact (exec_frame _ _ _ _ h).1

/-- Witness for C10: the jump word 0x1234 executed on a fresh machine reaches
tC10 and leaves memory intact. -/
theorem c10_memory_is_never_written_witness : tC10.memory = CHIP8.new.memory :=
  c10_memory_is_never_written CHIP8.new 0x1234 0 tC10 (Or.inl rfl)

end Chip8
